import Mathlib

/-!
Verification of the reconciliation core of `outlook-to-gcal` (shallow embedding).

The embedding covers `src/otg/api/events.py` (field access, identity matching and
change detection), `src/itg/api/outlook.py` (`filter_events`) and the poll loop of
`src/itg/tools/sync_calendars.py` (`sync_events`).  Python exceptions are modelled
with `Except`, Python `dict` absence with `Option`, and regular expressions with
Mathlib's `RegularExpression` together with the anchored-at-the-start ("match a
prefix") semantics of `re.match`.
-/

deriving instance DecidableEq for Except

namespace OutlookToGcal

/-- Leap-year test of the proleptic Gregorian calendar, as used by `datetime.date`. -/
def isLeap (y : Nat) : Bool :=
  (y % 4 == 0 && y % 100 != 0) || (y % 400 == 0)

/-- Number of days in month `m` of year `y`, as validated by the `datetime` constructors. -/
def daysInMonth (y m : Nat) : Nat :=
  if m = 2 then (if isLeap y then 29 else 28)
  else if m = 4 ∨ m = 6 ∨ m = 9 ∨ m = 11 then 30
  else 31

/-- Days in all years strictly before year `y` (year 1 is the first year), mirroring
`datetime.date.toordinal`'s `_days_before_year`. -/
def daysBeforeYear (y : Nat) : Nat :=
  365 * (y - 1) + (y - 1) / 4 - (y - 1) / 100 + (y - 1) / 400

/-- Days in the months of year `y` strictly before month `m`. -/
def daysBeforeMonth (y m : Nat) : Nat :=
  (List.range (m - 1)).foldl (fun acc i => acc + daysInMonth y (i + 1)) 0

/-- Proleptic Gregorian ordinal of a calendar day, mirroring `datetime.date.toordinal`. -/
def toOrdinal (y m d : Nat) : Nat :=
  daysBeforeYear y + daysBeforeMonth y m + d

/-- Semantic date/datetime values as produced by Python's `datetime` module: either a
`datetime.date` or a `datetime.datetime`, the latter naive (`tz = none`) or aware with
a fixed UTC offset in minutes (`tz = some minutes`). -/
inductive DTVal where
  | date (y m d : Nat)
  | datetime (y mo d h mi s : Nat) (tz : Option Int)
deriving DecidableEq, Repr

/-- UTC instant (in seconds) of an aware datetime, mirroring how Python compares aware
datetimes: the wall-clock value minus the UTC offset. -/
def instantOf (y mo d h mi s : Nat) (tzMin : Int) : Int :=
  ((toOrdinal y mo d : Int) * 86400 + h * 3600 + mi * 60 + s) - tzMin * 60

/-- Python `==` on date/datetime values: dates compare field-wise, naive datetimes
field-wise, aware datetimes by instant; a naive and an aware datetime are never equal,
and a `date` is never equal to a `datetime`. -/
def DTVal.pyEq : DTVal → DTVal → Bool
  | .date y m d, .date y' m' d' => y == y' && m == m' && d == d'
  | .datetime y mo d h mi s none, .datetime y' mo' d' h' mi' s' none =>
      y == y' && mo == mo' && d == d' && h == h' && mi == mi' && s == s'
  | .datetime y mo d h mi s (some t), .datetime y' mo' d' h' mi' s' (some t') =>
      instantOf y mo d h mi s t == instantOf y' mo' d' h' mi' s' t'
  | _, _ => false

/-- Python values that flow through `event_field`: strings (including `vText`),
date/datetime values, and the opaque recurrence payloads. -/
inductive PyVal where
  | str (s : String)
  | dt (v : DTVal)
  | rrule (r : String)
deriving DecidableEq, Repr

/-- Python `==` on the values above; values of different runtime types are unequal. -/
def PyVal.pyEq : PyVal → PyVal → Bool
  | .str a, .str b => a == b
  | .dt a, .dt b => DTVal.pyEq a b
  | .rrule a, .rrule b => a == b
  | _, _ => false

/-- Python `==` lifted to optional values (`None == None` is `True`, `None` never
equals a value). -/
def pyEqOpt : Option PyVal → Option PyVal → Bool
  | none, none => true
  | some a, some b => PyVal.pyEq a b
  | _, _ => false

/-- An `icalendar.Event`: a dictionary of iCal properties; `none` models an absent key.
`DTSTART`/`DTEND` carry the `.dt` payload of the corresponding `vDDDTypes` value. -/
structure ICalEvent where
  UID : Option String
  SUMMARY : Option String
  DESCRIPTION : Option String
  STATUS : Option String
  LOCATION : Option String
  RRULE : Option String
  DTSTART : Option DTVal
  DTEND : Option DTVal
deriving DecidableEq, Repr

/-- The `start`/`end` sub-dictionary of a Google Calendar event: a `dateTime` entry
(combined date-time string with offset) or a `date` entry (pure `YYYY-MM-DD` string). -/
structure GDateDict where
  dateTime : Option String
  date : Option String
deriving DecidableEq, Repr

/-- A Google Calendar API event resource (the keys `event_field` and `is_same_event`
read); `none` models an absent key. -/
structure GoogleEvent where
  id : Option String
  summary : Option String
  description : Option String
  status : Option String
  location : Option String
  recurrence : Option String
  start : Option GDateDict
  «end» : Option GDateDict
  iCalUID : Option String
deriving DecidableEq, Repr

/-- The two event shapes `event_field` dispatches on (`isinstance(event, icalendar.Event)`). -/
inductive Event where
  | ical (e : ICalEvent)
  | google (e : GoogleEvent)
deriving DecidableEq, Repr

/-- Python exceptions raised by the embedded functions: the explicit
`Exception("Unknown event field")` / `Exception("Unhandled event field")`, `KeyError`
from a missing dictionary key, and `ValueError` from date-string parsing. -/
inductive EventError where
  | invalidField (f : String)
  | unhandledField (f : String)
  | keyError (k : String)
  | valueError
deriving DecidableEq, Repr

def EVENT_ID : String := "id"

def EVENT_SUMMARY : String := "summary"

def EVENT_DESCRIPTION : String := "description"

def EVENT_LOCATION : String := "location"

def EVENT_STATUS : String := "status"

def EVENT_RECURRENCE : String := "recurrence"

def EVENT_START : String := "start"

def EVENT_END : String := "end"

def EVENT_FIELDS : List String :=
  [EVENT_ID, EVENT_SUMMARY, EVENT_LOCATION, EVENT_DESCRIPTION,
   EVENT_STATUS, EVENT_RECURRENCE, EVENT_START, EVENT_END]

def EVENT_COMPARISON_FIELDS : List String :=
  [EVENT_SUMMARY, EVENT_DESCRIPTION, EVENT_LOCATION, EVENT_START, EVENT_END]

/-- Reads exactly `n` decimal digits off the front of `cs`, accumulating into `acc`. -/
def readFixedNat : Nat → Nat → List Char → Option (Nat × List Char)
  | 0, acc, cs => some (acc, cs)
  | n + 1, acc, c :: cs =>
      if c.isDigit then readFixedNat n (acc * 10 + (c.toNat - 48)) cs else none
  | _ + 1, _, [] => none

/-- Consumes the expected character `c` off the front of the input. -/
def expectChar (c : Char) : List Char → Option (List Char)
  | c' :: cs => if c = c' then some cs else none
  | [] => none

/-- Reads one or two decimal digits (greedily) off the front of the input. -/
def readOneOrTwo : List Char → Option (Nat × List Char)
  | [] => none
  | c :: cs =>
    if c.isDigit then
      match cs with
      | c2 :: cs' =>
          if c2.isDigit then some ((c.toNat - 48) * 10 + (c2.toNat - 48), cs')
          else some (c.toNat - 48, cs)
      | [] => some (c.toNat - 48, [])
    else none

/-- Range validation performed by the `datetime.date` constructor. -/
def validYMD (y m d : Nat) : Bool :=
  decide (1 ≤ y) && decide (1 ≤ m) && decide (m ≤ 12) &&
  decide (1 ≤ d) && decide (d ≤ daysInMonth y m)

/-- Models `datetime.strptime(s, "%Y-%m-%d").date()`: four year digits and one or two
month/day digits separated by `-`, consuming the whole string, validated by the date
constructor; `none` models the `ValueError` Python raises. -/
def strptimeYMD (s : String) : Option (Nat × Nat × Nat) := do
  let cs := s.toList
  let (y, cs) ← readFixedNat 4 0 cs
  let cs ← expectChar '-' cs
  let (m, cs) ← readOneOrTwo cs
  let cs ← expectChar '-' cs
  let (d, cs) ← readOneOrTwo cs
  if cs = [] ∧ validYMD y m d then some (y, m, d) else none

/-- Parses the trailing UTC-offset part accepted by `datetime.fromisoformat` on RFC 3339
data: nothing (naive), `Z`, or `±HH:MM`; returns the offset in minutes. -/
def parseOffset : List Char → Option (Option Int)
  | [] => some none
  | ['Z'] => some (some 0)
  | sign :: rest =>
    match readFixedNat 2 0 rest with
    | none => none
    | some (oh, rest) =>
      match expectChar ':' rest with
      | none => none
      | some rest =>
        match readFixedNat 2 0 rest with
        | none => none
        | some (om, rest) =>
          if rest = [] ∧ oh ≤ 23 ∧ om ≤ 59 then
            if sign = '+' then some (some (oh * 60 + om))
            else if sign = '-' then some (some (-(oh * 60 + om : Int)))
            else none
          else none

/-- Component parser behind `fromisoformat`: year, month, day, hour, minute, second
and optional UTC offset (in minutes) of an RFC 3339 date-time string. -/
def fromisoformatParts (s : String) :
    Option (Nat × Nat × Nat × Nat × Nat × Nat × Option Int) := do
  let cs := s.toList
  let (y, cs) ← readFixedNat 4 0 cs
  let cs ← expectChar '-' cs
  let (mo, cs) ← readFixedNat 2 0 cs
  let cs ← expectChar '-' cs
  let (d, cs) ← readFixedNat 2 0 cs
  if validYMD y mo d = false then none
  else
    match cs with
    | [] => some (y, mo, d, 0, 0, 0, none)
    | sep :: cs =>
      if sep ≠ 'T' ∧ sep ≠ ' ' then none
      else do
        let (h, cs) ← readFixedNat 2 0 cs
        let cs ← expectChar ':' cs
        let (mi, cs) ← readFixedNat 2 0 cs
        let cs ← expectChar ':' cs
        let (sec, cs) ← readFixedNat 2 0 cs
        if h ≥ 24 ∨ mi ≥ 60 ∨ sec ≥ 60 then none
        else
          match parseOffset cs with
          | some tz => some (y, mo, d, h, mi, sec, tz)
          | none => none

/-- Models `datetime.fromisoformat` on the RFC 3339 shapes emitted by the Google
Calendar API: `YYYY-MM-DD`, optionally followed by `T` (or a space) and `HH:MM:SS`,
and an optional offset `Z` or `±HH:MM`; `none` models `ValueError`.  The result is
always a `datetime` (never a pure `date`) value. -/
def fromisoformat (s : String) : Option DTVal :=
  (fromisoformatParts s).map fun (y, mo, d, h, mi, sec, tz) => .datetime y mo d h mi sec tz

/-- Embedding of the `start`/`end` branches of the Google shape in `event_field`:
a present `dateTime` entry goes through `fromisoformat`, otherwise the `date` entry
goes through `strptime(..., "%Y-%m-%d").date()` (raising `KeyError` when absent). -/
def googleDateField : Option GDateDict → Except EventError (Option PyVal)
  | none => .ok none
  | some d =>
    match d.dateTime with
    | some s =>
      match fromisoformat s with
      | some v => .ok (some (.dt v))
      | none => .error .valueError
    | none =>
      match d.date with
      | some s =>
        match strptimeYMD s with
        | some (y, m, dd) => .ok (some (.dt (.date y m dd)))
        | none => .error .valueError
      | none => .error (.keyError "date")

/-- Embedding of `event_field` (`src/otg/api/events.py`): per-shape lookup of one of the
enumerated semantic fields, with Python exceptions modelled as `Except.error`. -/
def event_field (event : Event) (field : String) : Except EventError (Option PyVal) :=
  if field ∉ EVENT_FIELDS then .error (.invalidField field)
  else
    match event with
    | .ical e =>
      if field = EVENT_ID then
        match e.UID with
        | some v => .ok (some (.str v))
        | none => .error (.keyError "UID")
      else if field = EVENT_SUMMARY then
        .ok (some (.str (e.SUMMARY.getD "")))
      else if field = EVENT_DESCRIPTION then
        .ok (some (.str (e.DESCRIPTION.getD "")))
      else if field = EVENT_STATUS then
        match e.STATUS with
        | some v => .ok (some (.str v))
        | none => .error (.keyError "STATUS")
      else if field = EVENT_LOCATION then
        match e.LOCATION with
        | some v => .ok (some (.str v))
        | none => .error (.keyError "LOCATION")
      else if field = EVENT_RECURRENCE then
        .ok (e.RRULE.map .rrule)
      else if field = EVENT_START then
        .ok (e.DTSTART.map .dt)
      else if field = EVENT_END then
        .ok (e.DTEND.map .dt)
      else .error (.unhandledField field)
    | .google e =>
      if field = EVENT_ID then
        match e.id with
        | some v => .ok (some (.str v))
        | none => .error (.keyError "id")
      else if field = EVENT_SUMMARY then
        .ok (some (.str (e.summary.getD "")))
      else if field = EVENT_DESCRIPTION then
        .ok (some (.str (e.description.getD "")))
      else if field = EVENT_STATUS then
        match e.status with
        | some v => .ok (some (.str v))
        | none => .error (.keyError "status")
      else if field = EVENT_LOCATION then
        match e.location with
        | some v => .ok (some (.str v))
        | none => .error (.keyError "location")
      else if field = EVENT_RECURRENCE then
        .ok (e.recurrence.map .rrule)
      else if field = EVENT_START then
        googleDateField e.start
      else if field = EVENT_END then
        googleDateField e.«end»
      else .error (.unhandledField field)

/-- Embedding of `is_same_event`: the source's `id` field compared (Python `==`)
against the target's `iCalUID`, the latter defaulting to `""` when absent. -/
def is_same_event (outlook : Event) (google : GoogleEvent) : Except EventError Bool :=
  match event_field outlook EVENT_ID with
  | .error e => .error e
  | .ok oid => .ok (pyEqOpt oid (some (.str (google.iCalUID.getD ""))))

/-- The field loop of `has_event_changed`: walks the comparison fields in order and
stops at the first difference (Python `!=`). -/
def has_event_changed_loop (outlook google : Event) : List String → Except EventError Bool
  | [] => .ok false
  | f :: fs =>
    match event_field outlook f with
    | .error e => .error e
    | .ok ov =>
      match event_field google f with
      | .error e => .error e
      | .ok gv =>
        if pyEqOpt ov gv then has_event_changed_loop outlook google fs
        else .ok true

/-- Embedding of `has_event_changed`: true when at least one field of
`EVENT_COMPARISON_FIELDS` differs between the two events. -/
def has_event_changed (outlook google : Event) : Except EventError Bool :=
  has_event_changed_loop outlook google EVENT_COMPARISON_FIELDS

/-- Regular expressions over characters, modelling the patterns handed to Python's
`re` module. -/
abbrev Regex := RegularExpression Char

/-- Semantics of Python `re.match(r, s)` being truthy: the pattern matches at the
beginning of the string, i.e. some (possibly empty) prefix of `s` is in the language
of `r`.  Implemented by testing `rmatch` on every initial segment. -/
def reMatch (r : Regex) (s : String) : Bool :=
  (s.toList.inits).any fun p => r.rmatch p

/-- An `icalendar.Calendar` as seen by `filter_events`: its VEVENT components. -/
structure ICalCalendar where
  vevents : List ICalEvent
deriving DecidableEq, Repr

/-- Models `calendar.walk("VEVENT")`: the VEVENT components in document order. -/
def walkVEVENT (c : ICalCalendar) : List ICalEvent := c.vevents

/-- Outcome of the per-event body of the `filter_events` loop: keep the event, skip it
(`continue`), or raise. -/
inductive FilterStep where
  | keep
  | skip
  | err (e : EventError)
deriving DecidableEq, Repr

/-- The summary half of the `filter_events` loop body: when a summary pattern is given,
look up `event["SUMMARY"]` (a missing key raises) and skip the event unless the
pattern matches. -/
def filter_decision_summary (regexp_summary : Option Regex) (e : ICalEvent) : FilterStep :=
  match regexp_summary with
  | none => .keep
  | some r =>
    match e.SUMMARY with
    | none => .err (.keyError "SUMMARY")
    | some s => if reMatch r s then .keep else .skip

/-- The per-event body of the `filter_events` loop: the identity pattern is tested
first against `event["UID"]` (a missing key raises; a failed match skips the event
before the summary is ever read), then the summary pattern. -/
def filter_decision (regexp_id regexp_summary : Option Regex) (e : ICalEvent) : FilterStep :=
  match regexp_id with
  | none => filter_decision_summary regexp_summary e
  | some r =>
    match e.UID with
    | none => .err (.keyError "UID")
    | some uid =>
      if reMatch r uid then filter_decision_summary regexp_summary e
      else .skip

/-- The accumulation loop of `filter_events` over the VEVENT sequence; a raised
exception aborts the whole call. -/
def filter_events_loop (regexp_id regexp_summary : Option Regex) :
    List ICalEvent → Except EventError (List ICalEvent)
  | [] => .ok []
  | e :: es =>
    match filter_decision regexp_id regexp_summary e with
    | .err er => .error er
    | .skip => filter_events_loop regexp_id regexp_summary es
    | .keep =>
      match filter_events_loop regexp_id regexp_summary es with
      | .ok rest => .ok (e :: rest)
      | .error er => .error er

/-- Embedding of `filter_events` (`src/itg/api/outlook.py`): walks the calendar's
VEVENTs and keeps those whose UID and summary match the respective optional anchored
patterns. -/
def filter_events (calendar : ICalCalendar) (regexp_id regexp_summary : Option Regex) :
    Except EventError (List ICalEvent) :=
  filter_events_loop regexp_id regexp_summary (walkVEVENT calendar)

/-- The Boolean predicate a VEVENT must satisfy to be retained by `filter_events`
when all needed keys are present: every provided pattern matches. -/
def keepsEvent (regexp_id regexp_summary : Option Regex) (e : ICalEvent) : Bool :=
  (match regexp_id with
   | none => true
   | some r => reMatch r (e.UID.getD "")) &&
  (match regexp_summary with
   | none => true
   | some r => reMatch r (e.SUMMARY.getD ""))

/-- Observable actions of one pass of the `sync_events` loop body
(`src/itg/tools/sync_calendars.py`): running the pipeline (load, filter, init
service, compare, sync), emitting the error warning, and sleeping. -/
inductive SyncAction where
  | runPipeline
  | warnErrors (n : Nat)
  | sleep (n : Nat)
deriving DecidableEq, Repr

/-- One cycle of the `sync_events` body before the poll-interval test: the pipeline
runs, and a warning is logged exactly when the cycle produced a positive error count
(`errs k` is the number of per-item errors of cycle `k`). -/
def sync_cycle (errs : Nat → Nat) (k : Nat) : List SyncAction :=
  [SyncAction.runPipeline] ++ (if errs k > 0 then [SyncAction.warnErrors (errs k)] else [])

/-- Fuel-indexed trace semantics of the `while True` loop of `sync_events`, started at
cycle `k`: the list of actions observed within `fuel` iterations, and whether the loop
terminated (reached `break`) within that fuel. -/
def sync_events_trace (poll_interval : Option Nat) (errs : Nat → Nat) :
    Nat → Nat → List SyncAction × Bool
  | _, 0 => ([], false)
  | k, fuel + 1 =>
    let c := sync_cycle errs k
    match poll_interval with
    | none => (c, true)
    | some i =>
      let rest := sync_events_trace poll_interval errs (k + 1) fuel
      (c ++ [SyncAction.sleep i] ++ rest.1, rest.2)

/-- Recognizes the sleep actions of a trace. -/
def isSleep : SyncAction → Bool
  | .sleep _ => true
  | _ => false

/-- A VEVENT with every property absent, used as a concrete test input. -/
def emptyICalEvent : ICalEvent :=
  ⟨none, none, none, none, none, none, none, none⟩

/-- A Google event with every key absent, used as a concrete test input. -/
def emptyGoogleEvent : GoogleEvent :=
  ⟨none, none, none, none, none, none, none, none, none⟩

/-- Concrete VEVENT with UID `"a"` and summary `"x"`, used as a test input. -/
def evA : ICalEvent := { emptyICalEvent with UID := some "a", SUMMARY := some "x" }

/-- Concrete VEVENT with UID `"b"` and summary `"y"`, used as a test input. -/
def evB : ICalEvent := { emptyICalEvent with UID := some "b", SUMMARY := some "y" }

/-- Claim C1 counterexample: a source event whose UID is present but empty and a target
event without an `iCalUID` key both normalize their identity to the empty string, yet
`is_same_event` reports a match — the code compares identities with plain `==` and has
no empty-string sentinel. -/
theorem C1_counterexample :
    is_same_event (.ical { emptyICalEvent with UID := some "" }) emptyGoogleEvent =
      .ok true := by
  decide

/-- Claim C1 (amended): whenever the source UID is the empty string and the target's
`iCalUID` is absent or empty — i.e. both identities normalize to `""` —
`is_same_event` returns `true`, not `false`: identity comparison is plain string
equality with no never-matching sentinel for absent identities.  (A source event whose
UID key is absent altogether instead raises `KeyError`.) -/
theorem C1_amended (e : ICalEvent) (g : GoogleEvent) (h1 : e.UID = some "")
    (h2 : g.iCalUID = none ∨ g.iCalUID = some "") :
    is_same_event (.ical e) g = .ok true := by
  rcases h2 with h2 | h2 <;>
    simp [is_same_event, event_field, EVENT_FIELDS, EVENT_ID, EVENT_SUMMARY,
      EVENT_LOCATION, EVENT_DESCRIPTION, EVENT_STATUS, EVENT_RECURRENCE, EVENT_START,
      EVENT_END, h1, h2, pyEqOpt, PyVal.pyEq]

/-- Witness for C1_amended at a concrete input. -/
theorem C1_amended_witness :
    is_same_event (.ical { emptyICalEvent with UID := some "" }) emptyGoogleEvent =
      .ok true :=
  C1_amended { emptyICalEvent with UID := some "" } emptyGoogleEvent rfl (Or.inl rfl)

/-- Claim C2 counterexample: on a source-shape event with no STATUS property,
`event_field` raises `KeyError` (the `event["STATUS"]` access is unguarded) instead of
returning absent/None as the claim states. -/
theorem C2_counterexample :
    event_field (.ical emptyICalEvent) EVENT_STATUS = .error (.keyError "STATUS") := by
  decide

/-- Claim C2 (amended): for a source-shape event, `event_field` returns the empty
string when summary or description is missing and returns absent (`None`) when
recurrence, start or end is missing; however a missing status or location raises
`KeyError` rather than returning absent. -/
theorem C2_amended (e : ICalEvent) :
    (e.SUMMARY = none → event_field (.ical e) EVENT_SUMMARY = .ok (some (.str ""))) ∧
    (e.DESCRIPTION = none →
      event_field (.ical e) EVENT_DESCRIPTION = .ok (some (.str ""))) ∧
    (e.RRULE = none → event_field (.ical e) EVENT_RECURRENCE = .ok none) ∧
    (e.DTSTART = none → event_field (.ical e) EVENT_START = .ok none) ∧
    (e.DTEND = none → event_field (.ical e) EVENT_END = .ok none) ∧
    (e.STATUS = none → event_field (.ical e) EVENT_STATUS = .error (.keyError "STATUS")) ∧
    (e.LOCATION = none →
      event_field (.ical e) EVENT_LOCATION = .error (.keyError "LOCATION")) := by
  refine ⟨fun h => ?_, fun h => ?_, fun h => ?_, fun h => ?_, fun h => ?_,
    fun h => ?_, fun h => ?_⟩ <;>
    simp [event_field, EVENT_FIELDS, EVENT_ID, EVENT_SUMMARY, EVENT_LOCATION,
      EVENT_DESCRIPTION, EVENT_STATUS, EVENT_RECURRENCE, EVENT_START, EVENT_END, h]

/-- Witness for C2_amended at a concrete input. -/
theorem C2_amended_witness :
    event_field (.ical emptyICalEvent) EVENT_SUMMARY = .ok (some (.str "")) ∧
    event_field (.ical emptyICalEvent) EVENT_START = .ok none ∧
    event_field (.ical emptyICalEvent) EVENT_LOCATION = .error (.keyError "LOCATION") :=
  ⟨(C2_amended emptyICalEvent).1 rfl, (C2_amended emptyICalEvent).2.2.2.1 rfl,
    (C2_amended emptyICalEvent).2.2.2.2.2.2 rfl⟩

/-- Claim C4: for a source event with a present identity, `is_same_event` returns true
exactly when that identity equals the target's `iCalUID` attribute, the latter
defaulting to the empty string when absent. -/
theorem C4_theorem (e : ICalEvent) (uid : String) (g : GoogleEvent)
    (h : e.UID = some uid) :
    is_same_event (.ical e) g = .ok (uid == g.iCalUID.getD "") := by
  simp [is_same_event, event_field, EVENT_FIELDS, EVENT_ID, EVENT_SUMMARY,
    EVENT_LOCATION, EVENT_DESCRIPTION, EVENT_STATUS, EVENT_RECURRENCE, EVENT_START,
    EVENT_END, h, pyEqOpt, PyVal.pyEq]

/-- Witness for C4_theorem at a concrete input. -/
theorem C4_witness :
    is_same_event (.ical { emptyICalEvent with UID := some "abc" })
      { emptyGoogleEvent with iCalUID := some "abc" } = .ok true := by
  have h := C4_theorem { emptyICalEvent with UID := some "abc" } "abc"
    { emptyGoogleEvent with iCalUID := some "abc" } rfl
  simpa using h

/-- Claim C9: on a calendar whose only VEVENT lacks a SUMMARY property, `filter_events`
with a summary pattern raises `KeyError` — unlike `event_field`, which maps the same
missing summary to the empty string — and likewise a missing UID with an identity
pattern raises `KeyError`. -/
theorem C9_theorem :
    filter_events ⟨[emptyICalEvent]⟩ none (some (RegularExpression.char 'a')) =
        .error (.keyError "SUMMARY") ∧
    event_field (.ical emptyICalEvent) EVENT_SUMMARY = .ok (some (.str "")) ∧
    filter_events ⟨[emptyICalEvent]⟩ (some (RegularExpression.char 'a')) none =
        .error (.keyError "UID") := by
  decide

/-- A successful run of the `filter_events` loop yields a sublist of its input. -/
lemma filter_events_loop_sublist (rid rsum : Option Regex) :
    ∀ (l res : List ICalEvent), filter_events_loop rid rsum l = .ok res →
      res.Sublist l := by
  intro l
  induction l with
  | nil =>
    intro res h
    simp only [filter_events_loop] at h
    cases h
    exact List.Sublist.refl _
  | cons e es ih =>
    intro res h
    simp only [filter_events_loop] at h
    cases hd : filter_decision rid rsum e with
    | err er => rw [hd] at h; cases h
    | skip =>
      rw [hd] at h
      exact (ih res h).cons e
    | keep =>
      rw [hd] at h
      cases hr : filter_events_loop rid rsum es with
      | error er => rw [hr] at h; cases h
      | ok rest =>
        rw [hr] at h
        cases h
        exact (ih rest hr).cons₂ e

/-- Claim C10: whatever the optional patterns, a successful `filter_events` call
returns an order-preserving subsequence of the calendar's VEVENT sequence — each
retained event is one of the original events, unmodified, appearing at most once per
original occurrence and in the original relative order. -/
theorem C10_theorem (cal : ICalCalendar) (rid rsum : Option Regex)
    (res : List ICalEvent) (h : filter_events cal rid rsum = .ok res) :
    res.Sublist (walkVEVENT cal) :=
  filter_events_loop_sublist rid rsum (walkVEVENT cal) res h

/-- Witness for C10_theorem at a concrete input. -/
theorem C10_witness : List.Sublist [evA] [evA, evB] := by
  have h : filter_events ⟨[evA, evB]⟩ (some (RegularExpression.char 'a')) none =
      .ok [evA] := by decide
  exact C10_theorem ⟨[evA, evB]⟩ (some (RegularExpression.char 'a')) none [evA] h

/-- When the keys needed by the provided patterns are present, the body of the
`filter_events` loop keeps an event exactly when `keepsEvent` holds. -/
lemma filter_decision_eq (rid rsum : Option Regex) (e : ICalEvent)
    (h1 : rid.isSome → e.UID ≠ none) (h2 : rsum.isSome → e.SUMMARY ≠ none) :
    filter_decision rid rsum e = (if keepsEvent rid rsum e then .keep else .skip) := by
  cases rid with
  | none =>
    cases rsum with
    | none => simp [filter_decision, filter_decision_summary, keepsEvent]
    | some r =>
      cases hs : e.SUMMARY with
      | none => exact absurd hs (h2 (by simp))
      | some s =>
        cases hm : reMatch r s <;>
          simp [filter_decision, filter_decision_summary, keepsEvent, hs, hm]
  | some r =>
    cases hu : e.UID with
    | none => exact absurd hu (h1 (by simp))
    | some uid =>
      cases rsum with
      | none =>
        cases hm : reMatch r uid <;>
          simp [filter_decision, filter_decision_summary, keepsEvent, hu, hm]
      | some r' =>
        cases hs : e.SUMMARY with
        | none => exact absurd hs (h2 (by simp))
        | some s =>
          cases hm : reMatch r uid <;> cases hm' : reMatch r' s <;>
            simp [filter_decision, filter_decision_summary, keepsEvent, hu, hs, hm, hm']

/-- When the needed keys are present throughout, the `filter_events` loop returns
exactly the `keepsEvent`-filtered input. -/
lemma filter_events_loop_eq (rid rsum : Option Regex) :
    ∀ l : List ICalEvent,
      (∀ e ∈ l, (rid.isSome → e.UID ≠ none) ∧ (rsum.isSome → e.SUMMARY ≠ none)) →
      filter_events_loop rid rsum l = .ok (l.filter (keepsEvent rid rsum)) := by
  intro l
  induction l with
  | nil => intro _; rfl
  | cons e es ih =>
    intro H
    have he := H e (by simp)
    have hrest : ∀ e' ∈ es, (rid.isSome → e'.UID ≠ none) ∧
        (rsum.isSome → e'.SUMMARY ≠ none) := fun e' h' => H e' (by simp [h'])
    simp only [filter_events_loop, filter_decision_eq rid rsum e he.1 he.2,
      List.filter_cons]
    cases hk : keepsEvent rid rsum e <;> simp [ih hrest]

/-- Claim C7: given a calendar whose events carry the keys the provided patterns need,
`filter_events` returns exactly the subsequence of VEVENTs on which every provided
pattern matches; an absent pattern filters nothing on its axis, so with both patterns
absent every event is returned. The last conjunct pins the anchored semantics of a
pattern test: a match succeeds exactly when some initial segment of the string is in
the pattern's language. -/
theorem C7_theorem (cal : ICalCalendar) (rid rsum : Option Regex)
    (H : ∀ e ∈ walkVEVENT cal,
      (rid.isSome → e.UID ≠ none) ∧ (rsum.isSome → e.SUMMARY ≠ none)) :
    filter_events cal rid rsum = .ok ((walkVEVENT cal).filter (keepsEvent rid rsum)) ∧
    filter_events cal none none = .ok (walkVEVENT cal) ∧
    (∀ (r : Regex) (s : String),
      reMatch r s = true ↔ ∃ p t, p ++ t = s.toList ∧ p ∈ r.matches') := by
  refine ⟨filter_events_loop_eq rid rsum (walkVEVENT cal) H, ?_, ?_⟩
  · have h := filter_events_loop_eq none none (walkVEVENT cal) (by simp)
    have hk : (walkVEVENT cal).filter (keepsEvent none none) = walkVEVENT cal := by
      apply List.filter_eq_self.mpr
      intro a _
      rfl
    rw [filter_events, h, hk]
  · intro r s
    constructor
    · intro h
      rw [reMatch, List.any_eq_true] at h
      obtain ⟨p, hp, hm⟩ := h
      obtain ⟨t, ht⟩ := (List.mem_inits _ _).mp hp
      exact ⟨p, t, ht, (RegularExpression.rmatch_iff_matches' _ _).mp hm⟩
    · rintro ⟨p, t, ht, hm⟩
      rw [reMatch, List.any_eq_true]
      exact ⟨p, (List.mem_inits _ _).mpr ⟨t, ht⟩,
        (RegularExpression.rmatch_iff_matches' _ _).mpr hm⟩

/-- Witness for C7_theorem at a concrete input. -/
theorem C7_witness :
    filter_events ⟨[evA, evB]⟩ (some (RegularExpression.char 'a')) none = .ok [evA] := by
  have h := (C7_theorem ⟨[evA, evB]⟩ (some (RegularExpression.char 'a')) none
    (by decide)).1
  have e : (walkVEVENT ⟨[evA, evB]⟩).filter
      (keepsEvent (some (RegularExpression.char 'a')) none) = [evA] := by decide
  rw [e] at h
  exact h

/-- The loop of `has_event_changed` returns `true` exactly when some field of its list
differs between the two events under Python equality. -/
lemma has_event_changed_loop_iff (o g : Event) :
    ∀ (l : List String) (b : Bool), has_event_changed_loop o g l = .ok b →
      (b = true ↔ ∃ f ∈ l, ∃ ov gv, event_field o f = .ok ov ∧
        event_field g f = .ok gv ∧ pyEqOpt ov gv = false) := by
  intro l
  induction l with
  | nil =>
    intro b h
    simp only [has_event_changed_loop] at h
    cases h
    simp
  | cons f fs ih =>
    intro b h
    simp only [has_event_changed_loop] at h
    cases h1 : event_field o f with
    | error er => rw [h1] at h; simp only at h; cases h
    | ok ov =>
      rw [h1] at h
      simp only at h
      cases h2 : event_field g f with
      | error er => rw [h2] at h; simp only at h; cases h
      | ok gv =>
        rw [h2] at h
        simp only at h
        cases hpe : pyEqOpt ov gv with
        | true =>
          rw [if_pos hpe] at h
          have hiff := ih b h
          constructor
          · intro hb
            obtain ⟨f', hf', rest⟩ := hiff.mp hb
            exact ⟨f', by simp [hf'], rest⟩
          · rintro ⟨f', hf', ov', gv', e1, e2, hne⟩
            rcases List.mem_cons.mp hf' with rfl | hf'
            · rw [h1] at e1
              rw [h2] at e2
              cases e1
              cases e2
              rw [hpe] at hne
              cases hne
            · exact hiff.mpr ⟨f', hf', ov', gv', e1, e2, hne⟩
        | false =>
          rw [if_neg (by simp [hpe])] at h
          cases h
          simp only [true_iff]
          exact ⟨f, by simp, ov, gv, h1, h2, hpe⟩

/-- Two iCal events agreeing on summary, description, location, start and end (they may
differ in UID, STATUS and RRULE). -/
def sameComparableICal (e1 e2 : ICalEvent) : Prop :=
  e1.SUMMARY = e2.SUMMARY ∧ e1.DESCRIPTION = e2.DESCRIPTION ∧
  e1.LOCATION = e2.LOCATION ∧ e1.DTSTART = e2.DTSTART ∧ e1.DTEND = e2.DTEND

/-- Two Google events agreeing on summary, description, location, start and end (they
may differ in id, status, recurrence and iCalUID). -/
def sameComparableGoogle (g1 g2 : GoogleEvent) : Prop :=
  g1.summary = g2.summary ∧ g1.description = g2.description ∧
  g1.location = g2.location ∧ g1.start = g2.start ∧ g1.«end» = g2.«end»

/-- On the comparison fields, `event_field` on the iCal shape reads only the summary,
description, location, start and end properties. -/
lemma event_field_ical_comparison (e1 e2 : ICalEvent) (h : sameComparableICal e1 e2) :
    ∀ f ∈ EVENT_COMPARISON_FIELDS,
      event_field (.ical e1) f = event_field (.ical e2) f := by
  obtain ⟨hs, hd, hl, h0, h1⟩ := h
  intro f hf
  simp only [EVENT_COMPARISON_FIELDS, EVENT_SUMMARY, EVENT_DESCRIPTION, EVENT_LOCATION,
    EVENT_START, EVENT_END, List.mem_cons, List.not_mem_nil, or_false] at hf
  rcases hf with rfl | rfl | rfl | rfl | rfl <;>
    simp [event_field, EVENT_FIELDS, EVENT_ID, EVENT_SUMMARY, EVENT_LOCATION,
      EVENT_DESCRIPTION, EVENT_STATUS, EVENT_RECURRENCE, EVENT_START, EVENT_END,
      hs, hd, hl, h0, h1]

/-- On the comparison fields, `event_field` on the Google shape reads only the summary,
description, location, start and end keys. -/
lemma event_field_google_comparison (g1 g2 : GoogleEvent)
    (h : sameComparableGoogle g1 g2) :
    ∀ f ∈ EVENT_COMPARISON_FIELDS,
      event_field (.google g1) f = event_field (.google g2) f := by
  obtain ⟨hs, hd, hl, h0, h1⟩ := h
  intro f hf
  simp only [EVENT_COMPARISON_FIELDS, EVENT_SUMMARY, EVENT_DESCRIPTION, EVENT_LOCATION,
    EVENT_START, EVENT_END, List.mem_cons, List.not_mem_nil, or_false] at hf
  rcases hf with rfl | rfl | rfl | rfl | rfl <;>
    simp [event_field, EVENT_FIELDS, EVENT_ID, EVENT_SUMMARY, EVENT_LOCATION,
      EVENT_DESCRIPTION, EVENT_STATUS, EVENT_RECURRENCE, EVENT_START, EVENT_END,
      hs, hd, hl, h0, h1]

/-- The loop of `has_event_changed` is determined by the values `event_field` gives the
fields of its list. -/
lemma has_event_changed_loop_congr (o1 o2 g1 g2 : Event) :
    ∀ l : List String,
      (∀ f ∈ l, event_field o1 f = event_field o2 f) →
      (∀ f ∈ l, event_field g1 f = event_field g2 f) →
      has_event_changed_loop o1 g1 l = has_event_changed_loop o2 g2 l := by
  intro l
  induction l with
  | nil => intro _ _; rfl
  | cons f fs ih =>
    intro ho hg
    simp only [has_event_changed_loop, ho f (by simp), hg f (by simp)]
    rw [ih (fun f' h' => ho f' (by simp [h'])) (fun f' h' => hg f' (by simp [h']))]

/-- Claim C3: a returning `has_event_changed` call yields `true` exactly when at least
one of the five comparable fields (summary, description, location, start, end) differs
under Python value equality; status and recurrence are not comparison fields, and
events differing only in status/recurrence (either shape, either argument position)
give identical results. -/
theorem C3_theorem :
    (∀ (o g : Event) (b : Bool), has_event_changed o g = .ok b →
      (b = true ↔ ∃ f ∈ EVENT_COMPARISON_FIELDS, ∃ ov gv, event_field o f = .ok ov ∧
        event_field g f = .ok gv ∧ pyEqOpt ov gv = false)) ∧
    EVENT_STATUS ∉ EVENT_COMPARISON_FIELDS ∧
    EVENT_RECURRENCE ∉ EVENT_COMPARISON_FIELDS ∧
    (∀ e1 e2 : ICalEvent, sameComparableICal e1 e2 → ∀ g : Event,
      has_event_changed (.ical e1) g = has_event_changed (.ical e2) g ∧
      has_event_changed g (.ical e1) = has_event_changed g (.ical e2)) ∧
    (∀ g1 g2 : GoogleEvent, sameComparableGoogle g1 g2 → ∀ o : Event,
      has_event_changed (.google g1) o = has_event_changed (.google g2) o ∧
      has_event_changed o (.google g1) = has_event_changed o (.google g2)) := by
  refine ⟨fun o g b h => has_event_changed_loop_iff o g EVENT_COMPARISON_FIELDS b h,
    by decide, by decide, fun e1 e2 h g => ⟨?_, ?_⟩, fun g1 g2 h o => ⟨?_, ?_⟩⟩
  · exact has_event_changed_loop_congr _ _ _ _ EVENT_COMPARISON_FIELDS
      (event_field_ical_comparison e1 e2 h) (fun f _ => rfl)
  · exact has_event_changed_loop_congr _ _ _ _ EVENT_COMPARISON_FIELDS
      (fun f _ => rfl) (event_field_ical_comparison e1 e2 h)
  · exact has_event_changed_loop_congr _ _ _ _ EVENT_COMPARISON_FIELDS
      (event_field_google_comparison g1 g2 h) (fun f _ => rfl)
  · exact has_event_changed_loop_congr _ _ _ _ EVENT_COMPARISON_FIELDS
      (fun f _ => rfl) (event_field_google_comparison g1 g2 h)

/-- Witness for C3_theorem at a concrete input: the iCal event with summary `"x"` has
changed relative to an empty Google event, and a differing comparison field exists. -/
theorem C3_witness :
    ∃ f ∈ EVENT_COMPARISON_FIELDS, ∃ ov gv,
      event_field (.ical evA) f = .ok ov ∧
      event_field (.google emptyGoogleEvent) f = .ok gv ∧ pyEqOpt ov gv = false :=
  (C3_theorem.1 (.ical evA) (.google emptyGoogleEvent) true (by decide)).mp rfl

/-- Every error raised by the Google-shape date lookup is a `KeyError` or a
`ValueError`. -/
lemma googleDateField_error (o : Option GDateDict) (er : EventError)
    (h : googleDateField o = .error er) :
    (∃ k, er = .keyError k) ∨ er = .valueError := by
  cases o with
  | none => simp [googleDateField] at h
  | some d =>
    cases hdt : d.dateTime with
    | some s =>
      cases hf : fromisoformat s with
      | some v => simp [googleDateField, hdt, hf] at h
      | none =>
        simp only [googleDateField, hdt, hf] at h
        cases h
        exact Or.inr rfl
    | none =>
      cases hda : d.date with
      | some s =>
        cases hp : strptimeYMD s with
        | some t =>
          obtain ⟨y, m, dd⟩ := t
          simp [googleDateField, hdt, hda, hp] at h
        | none =>
          simp only [googleDateField, hdt, hda, hp] at h
          cases h
          exact Or.inr rfl
      | none =>
        simp only [googleDateField, hdt, hda] at h
        cases h
        exact Or.inl ⟨"date", rfl⟩

/-- For a field name in the enumerated set, any error `event_field` raises is a
`KeyError` (absent key) or a `ValueError` (malformed date string); in particular the
unknown-field and unhandled-field exceptions never occur on known fields. -/
lemma event_field_known_error (ev : Event) (f : String) (hf : f ∈ EVENT_FIELDS)
    (er : EventError) (h : event_field ev f = .error er) :
    (∃ k, er = .keyError k) ∨ er = .valueError := by
  simp only [EVENT_FIELDS, EVENT_ID, EVENT_SUMMARY, EVENT_LOCATION, EVENT_DESCRIPTION,
    EVENT_STATUS, EVENT_RECURRENCE, EVENT_START, EVENT_END, List.mem_cons,
    List.not_mem_nil, or_false] at hf
  cases ev with
  | ical e =>
    rcases hf with rfl | rfl | rfl | rfl | rfl | rfl | rfl | rfl
    · cases hu : e.UID with
      | some v =>
        simp [event_field, EVENT_FIELDS, EVENT_ID, EVENT_SUMMARY, EVENT_LOCATION,
          EVENT_DESCRIPTION, EVENT_STATUS, EVENT_RECURRENCE, EVENT_START, EVENT_END,
          hu] at h
      | none =>
        simp only [event_field, EVENT_FIELDS, EVENT_ID, EVENT_SUMMARY, EVENT_LOCATION,
          EVENT_DESCRIPTION, EVENT_STATUS, EVENT_RECURRENCE, EVENT_START, EVENT_END,
          hu] at h
        simp at h
        exact Or.inl ⟨"UID", h.symm⟩
    · simp [event_field, EVENT_FIELDS, EVENT_ID, EVENT_SUMMARY, EVENT_LOCATION,
        EVENT_DESCRIPTION, EVENT_STATUS, EVENT_RECURRENCE, EVENT_START, EVENT_END] at h
    · cases hu : e.LOCATION with
      | some v =>
        simp [event_field, EVENT_FIELDS, EVENT_ID, EVENT_SUMMARY, EVENT_LOCATION,
          EVENT_DESCRIPTION, EVENT_STATUS, EVENT_RECURRENCE, EVENT_START, EVENT_END,
          hu] at h
      | none =>
        simp only [event_field, EVENT_FIELDS, EVENT_ID, EVENT_SUMMARY, EVENT_LOCATION,
          EVENT_DESCRIPTION, EVENT_STATUS, EVENT_RECURRENCE, EVENT_START, EVENT_END,
          hu] at h
        simp at h
        exact Or.inl ⟨"LOCATION", h.symm⟩
    · simp [event_field, EVENT_FIELDS, EVENT_ID, EVENT_SUMMARY, EVENT_LOCATION,
        EVENT_DESCRIPTION, EVENT_STATUS, EVENT_RECURRENCE, EVENT_START, EVENT_END] at h
    · cases hu : e.STATUS with
      | some v =>
        simp [event_field, EVENT_FIELDS, EVENT_ID, EVENT_SUMMARY, EVENT_LOCATION,
          EVENT_DESCRIPTION, EVENT_STATUS, EVENT_RECURRENCE, EVENT_START, EVENT_END,
          hu] at h
      | none =>
        simp only [event_field, EVENT_FIELDS, EVENT_ID, EVENT_SUMMARY, EVENT_LOCATION,
          EVENT_DESCRIPTION, EVENT_STATUS, EVENT_RECURRENCE, EVENT_START, EVENT_END,
          hu] at h
        simp at h
        exact Or.inl ⟨"STATUS", h.symm⟩
    · simp [event_field, EVENT_FIELDS, EVENT_ID, EVENT_SUMMARY, EVENT_LOCATION,
        EVENT_DESCRIPTION, EVENT_STATUS, EVENT_RECURRENCE, EVENT_START, EVENT_END] at h
    · simp [event_field, EVENT_FIELDS, EVENT_ID, EVENT_SUMMARY, EVENT_LOCATION,
        EVENT_DESCRIPTION, EVENT_STATUS, EVENT_RECURRENCE, EVENT_START, EVENT_END] at h
    · simp [event_field, EVENT_FIELDS, EVENT_ID, EVENT_SUMMARY, EVENT_LOCATION,
        EVENT_DESCRIPTION, EVENT_STATUS, EVENT_RECURRENCE, EVENT_START, EVENT_END] at h
  | google e =>
    rcases hf with rfl | rfl | rfl | rfl | rfl | rfl | rfl | rfl
    · cases hu : e.id with
      | some v =>
        simp [event_field, EVENT_FIELDS, EVENT_ID, EVENT_SUMMARY, EVENT_LOCATION,
          EVENT_DESCRIPTION, EVENT_STATUS, EVENT_RECURRENCE, EVENT_START, EVENT_END,
          hu] at h
      | none =>
        simp only [event_field, EVENT_FIELDS, EVENT_ID, EVENT_SUMMARY, EVENT_LOCATION,
          EVENT_DESCRIPTION, EVENT_STATUS, EVENT_RECURRENCE, EVENT_START, EVENT_END,
          hu] at h
        simp at h
        exact Or.inl ⟨"id", h.symm⟩
    · simp [event_field, EVENT_FIELDS, EVENT_ID, EVENT_SUMMARY, EVENT_LOCATION,
        EVENT_DESCRIPTION, EVENT_STATUS, EVENT_RECURRENCE, EVENT_START, EVENT_END] at h
    · cases hu : e.location with
      | some v =>
        simp [event_field, EVENT_FIELDS, EVENT_ID, EVENT_SUMMARY, EVENT_LOCATION,
          EVENT_DESCRIPTION, EVENT_STATUS, EVENT_RECURRENCE, EVENT_START, EVENT_END,
          hu] at h
      | none =>
        simp only [event_field, EVENT_FIELDS, EVENT_ID, EVENT_SUMMARY, EVENT_LOCATION,
          EVENT_DESCRIPTION, EVENT_STATUS, EVENT_RECURRENCE, EVENT_START, EVENT_END,
          hu] at h
        simp at h
        exact Or.inl ⟨"location", h.symm⟩
    · simp [event_field, EVENT_FIELDS, EVENT_ID, EVENT_SUMMARY, EVENT_LOCATION,
        EVENT_DESCRIPTION, EVENT_STATUS, EVENT_RECURRENCE, EVENT_START, EVENT_END] at h
    · cases hu : e.status with
      | some v =>
        simp [event_field, EVENT_FIELDS, EVENT_ID, EVENT_SUMMARY, EVENT_LOCATION,
          EVENT_DESCRIPTION, EVENT_STATUS, EVENT_RECURRENCE, EVENT_START, EVENT_END,
          hu] at h
      | none =>
        simp only [event_field, EVENT_FIELDS, EVENT_ID, EVENT_SUMMARY, EVENT_LOCATION,
          EVENT_DESCRIPTION, EVENT_STATUS, EVENT_RECURRENCE, EVENT_START, EVENT_END,
          hu] at h
        simp at h
        exact Or.inl ⟨"status", h.symm⟩
    · simp [event_field, EVENT_FIELDS, EVENT_ID, EVENT_SUMMARY, EVENT_LOCATION,
        EVENT_DESCRIPTION, EVENT_STATUS, EVENT_RECURRENCE, EVENT_START, EVENT_END] at h
    · refine googleDateField_error e.start er ?_
      rw [← h]
      simp [event_field, EVENT_FIELDS, EVENT_ID, EVENT_SUMMARY, EVENT_LOCATION,
        EVENT_DESCRIPTION, EVENT_STATUS, EVENT_RECURRENCE, EVENT_START, EVENT_END]
    · refine googleDateField_error e.«end» er ?_
      rw [← h]
      simp [event_field, EVENT_FIELDS, EVENT_ID, EVENT_SUMMARY, EVENT_LOCATION,
        EVENT_DESCRIPTION, EVENT_STATUS, EVENT_RECURRENCE, EVENT_START, EVENT_END]

/-- Claim C6: `event_field` fails with the invalid-field error exactly on field names
outside the fixed enumerated set; on field names inside the set the invalid-field and
unhandled-field exceptions are impossible and any raised error comes from the per-shape
absence/normalization policy (`KeyError` for an absent key, `ValueError` for a
malformed date string).  Being a Lean function of `(event, field)`, the embedding is
pure by construction. -/
theorem C6_theorem (ev : Event) (f : String) :
    (f ∉ EVENT_FIELDS → event_field ev f = .error (.invalidField f)) ∧
    (f ∈ EVENT_FIELDS →
      (∀ s, event_field ev f ≠ .error (.invalidField s)) ∧
      (∀ s, event_field ev f ≠ .error (.unhandledField s)) ∧
      (∀ er, event_field ev f = .error er →
        (∃ k, er = .keyError k) ∨ er = .valueError)) := by
  constructor
  · intro h
    simp [event_field, h]
  · intro hf
    refine ⟨fun s hs => ?_, fun s hs => ?_, event_field_known_error ev f hf⟩
    · rcases event_field_known_error ev f hf _ hs with ⟨k, hk⟩ | hk <;> cases hk
    · rcases event_field_known_error ev f hf _ hs with ⟨k, hk⟩ | hk <;> cases hk

/-- Witness for C6_theorem at a concrete input: the unknown field name `"bogus"`. -/
theorem C6_witness :
    event_field (.ical emptyICalEvent) "bogus" = .error (.invalidField "bogus") :=
  (C6_theorem (.ical emptyICalEvent) "bogus").1 (by decide)

/-- Python equality on date/datetime values is reflexive. -/
lemma DTVal.pyEq_refl (v : DTVal) : DTVal.pyEq v v = true := by
  cases v with
  | date y m d => simp [DTVal.pyEq]
  | datetime y mo d h mi s tz => cases tz <;> simp [DTVal.pyEq]

/-- The `dateTime` sub-variant always normalizes to a `datetime` value. -/
lemma fromisoformat_datetime (s : String) (v : DTVal) (h : fromisoformat s = some v) :
    ∃ y mo d hh mi sec tz, v = .datetime y mo d hh mi sec tz := by
  simp only [fromisoformat] at h
  rw [Option.map_eq_some'] at h
  obtain ⟨⟨y, mo, d, hh, mi, sec, tz⟩, _, hv⟩ := h
  exact ⟨y, mo, d, hh, mi, sec, tz, hv.symm⟩

/-- Claim C5: for a target-shape event with a present start or end, `event_field`
normalizes the `dateTime` sub-variant through `fromisoformat` into a `datetime` value
and the pure-date sub-variant (`YYYY-MM-DD`) through `strptime` into a `date` value —
the same semantic types carried by source-shape events — so that a source event
holding the same semantic value produces an `event_field` result that compares equal
under Python value equality across the two shapes. -/
theorem C5_theorem (g : GoogleEvent) (e : ICalEvent) :
    (∀ d s v, g.start = some d → d.dateTime = some s → fromisoformat s = some v →
      event_field (.google g) EVENT_START = .ok (some (.dt v)) ∧
      (∃ y mo dd hh mi sec tz, v = .datetime y mo dd hh mi sec tz) ∧
      (e.DTSTART = some v → event_field (.ical e) EVENT_START = .ok (some (.dt v)) ∧
        pyEqOpt (some (.dt v)) (some (.dt v)) = true)) ∧
    (∀ d s y mo dd, g.start = some d → d.dateTime = none → d.date = some s →
      strptimeYMD s = some (y, mo, dd) →
      event_field (.google g) EVENT_START = .ok (some (.dt (.date y mo dd))) ∧
      (e.DTSTART = some (.date y mo dd) →
        event_field (.ical e) EVENT_START = .ok (some (.dt (.date y mo dd))) ∧
        pyEqOpt (some (.dt (.date y mo dd))) (some (.dt (.date y mo dd))) = true)) ∧
    (∀ d s v, g.«end» = some d → d.dateTime = some s → fromisoformat s = some v →
      event_field (.google g) EVENT_END = .ok (some (.dt v)) ∧
      (∃ y mo dd hh mi sec tz, v = .datetime y mo dd hh mi sec tz) ∧
      (e.DTEND = some v → event_field (.ical e) EVENT_END = .ok (some (.dt v)) ∧
        pyEqOpt (some (.dt v)) (some (.dt v)) = true)) ∧
    (∀ d s y mo dd, g.«end» = some d → d.dateTime = none → d.date = some s →
      strptimeYMD s = some (y, mo, dd) →
      event_field (.google g) EVENT_END = .ok (some (.dt (.date y mo dd))) ∧
      (e.DTEND = some (.date y mo dd) →
        event_field (.ical e) EVENT_END = .ok (some (.dt (.date y mo dd))) ∧
        pyEqOpt (some (.dt (.date y mo dd))) (some (.dt (.date y mo dd))) = true)) := by
  refine ⟨fun d s v hg hdt hfi => ⟨?_, fromisoformat_datetime s v hfi, fun he => ⟨?_, ?_⟩⟩,
    fun d s y mo dd hg hdt hda hp => ⟨?_, fun he => ⟨?_, ?_⟩⟩,
    fun d s v hg hdt hfi => ⟨?_, fromisoformat_datetime s v hfi, fun he => ⟨?_, ?_⟩⟩,
    fun d s y mo dd hg hdt hda hp => ⟨?_, fun he => ⟨?_, ?_⟩⟩⟩ <;>
  simp [event_field, EVENT_FIELDS, EVENT_ID, EVENT_SUMMARY, EVENT_LOCATION,
    EVENT_DESCRIPTION, EVENT_STATUS, EVENT_RECURRENCE, EVENT_START, EVENT_END,
    googleDateField, pyEqOpt, PyVal.pyEq, DTVal.pyEq_refl, *]

/-- Concrete Google event whose start is a combined date-time string with offset. -/
def gC5 : GoogleEvent :=
  { emptyGoogleEvent with start := some ⟨some "2024-03-05T09:30:00+02:00", none⟩ }

/-- Concrete iCal event whose DTSTART carries the same instant as `gC5`'s start. -/
def eC5 : ICalEvent :=
  { emptyICalEvent with DTSTART := some (.datetime 2024 3 5 9 30 0 (some 120)) }

/-- Witness for C5_theorem at a concrete input. -/
theorem C5_witness :
    event_field (.google gC5) EVENT_START =
        .ok (some (.dt (.datetime 2024 3 5 9 30 0 (some 120)))) ∧
    event_field (.ical eC5) EVENT_START =
        .ok (some (.dt (.datetime 2024 3 5 9 30 0 (some 120)))) ∧
    pyEqOpt (some (.dt (.datetime 2024 3 5 9 30 0 (some 120))))
        (some (.dt (.datetime 2024 3 5 9 30 0 (some 120)))) = true := by
  have h := (C5_theorem gC5 eC5).1 ⟨some "2024-03-05T09:30:00+02:00", none⟩
    "2024-03-05T09:30:00+02:00" (.datetime 2024 3 5 9 30 0 (some 120)) rfl rfl
    (by decide)
  exact ⟨h.1, (h.2.2 rfl).1, (h.2.2 rfl).2⟩

/-- Each pass of the `sync_events` body runs the pipeline exactly once. -/
lemma sync_cycle_count (errs : Nat → Nat) (k : Nat) :
    (sync_cycle errs k).count SyncAction.runPipeline = 1 := by
  by_cases h : errs k > 0 <;> simp [sync_cycle, h, List.count_cons]

/-- The `sync_events` body itself never sleeps. -/
lemma sync_cycle_sleeps (errs : Nat → Nat) (k : Nat) :
    (sync_cycle errs k).filter isSleep = [] := by
  by_cases h : errs k > 0 <;> simp [sync_cycle, h, isSleep]

/-- With a poll interval configured, the loop never reaches `break`, runs the pipeline
once per iteration, and sleeps exactly the configured interval after every iteration —
independently of the per-cycle error counts. -/
lemma sync_events_trace_polling (errs : Nat → Nat) (i : Nat) :
    ∀ fuel k,
      (sync_events_trace (some i) errs k fuel).2 = false ∧
      (sync_events_trace (some i) errs k fuel).1.count SyncAction.runPipeline = fuel ∧
      (sync_events_trace (some i) errs k fuel).1.filter isSleep =
        List.replicate fuel (SyncAction.sleep i) := by
  intro fuel
  induction fuel with
  | zero => exact fun k => ⟨rfl, rfl, rfl⟩
  | succ n ih =>
    intro k
    obtain ⟨h1, h2, h3⟩ := ih (k + 1)
    refine ⟨by simp [sync_events_trace, h1], ?_, ?_⟩
    · simp [sync_events_trace, List.count_append, h2, sync_cycle_count, isSleep]
      omega
    · simp [sync_events_trace, List.filter_append, h3, sync_cycle_sleeps, isSleep,
        List.replicate_succ]

/-- Claim C8: without a poll interval the loop runs the pipeline exactly once,
terminates, and never sleeps; with a poll interval `i` it never terminates within any
fuel bound, runs the pipeline once per iteration, and sleeps exactly `i` after each
iteration, with the cadence independent of the per-cycle error counts (the sleep
pattern `replicate fuel (sleep i)` does not mention `errs`). -/
theorem C8_theorem :
    (∀ (errs : Nat → Nat) (fuel : Nat), 1 ≤ fuel →
      sync_events_trace none errs 0 fuel = (sync_cycle errs 0, true) ∧
      (sync_events_trace none errs 0 fuel).1.count SyncAction.runPipeline = 1 ∧
      (sync_events_trace none errs 0 fuel).1.filter isSleep = []) ∧
    (∀ (errs : Nat → Nat) (i k fuel : Nat),
      (sync_events_trace (some i) errs k fuel).2 = false ∧
      (sync_events_trace (some i) errs k fuel).1.count SyncAction.runPipeline = fuel ∧
      (sync_events_trace (some i) errs k fuel).1.filter isSleep =
        List.replicate fuel (SyncAction.sleep i)) := by
  constructor
  · intro errs fuel hf
    obtain ⟨n, rfl⟩ : ∃ n, fuel = n + 1 := ⟨fuel - 1, by omega⟩
    have he : sync_events_trace none errs 0 (n + 1) = (sync_cycle errs 0, true) := by
      simp [sync_events_trace]
    rw [he]
    exact ⟨rfl, sync_cycle_count errs 0, sync_cycle_sleeps errs 0⟩
  · intro errs i k fuel
    exact sync_events_trace_polling errs i fuel k

/-- Witness for C8_theorem at a concrete input. -/
theorem C8_witness :
    sync_events_trace none (fun _ => 0) 0 1 = (sync_cycle (fun _ => 0) 0, true) :=
  (C8_theorem.1 (fun _ => 0) 1 (by decide)).1

end OutlookToGcal
